import Mathlib

/-!
Verification of the rekrea background-removal pipeline
(`rekrea/modules/background_removal/remover.py`).

The pipeline's effectful operations are shallowly embedded:

* the filesystem view of a directory is a list of `(filename, bytes)` pairs,
  with bytes as `List Nat`;
* external library calls (ffmpeg probe/decode/encode, rembg session
  construction and inference) are parameters of type `Except`, so every
  failure path the Python code can take is a value of the environment;
* failures use the spec's error taxonomy `PErr` (the Python code raises
  library exceptions at exactly these program points);
* the observable actions of a run (directory creation, session
  construction, per-frame reads/inference/writes, progress callbacks,
  encoder invocation, workspace acquisition and removal) are recorded in
  an event trace `List Ev`, in program order.
-/

namespace Rekrea

/-- Error taxonomy of the spec (§7); the Python source raises library
exceptions (ffmpeg.Error, StopIteration, ValueError, rembg errors) at the
program points modelled by each constructor. -/
inductive PErr
  | probeError
  | extractionError
  | unknownModelError
  | inferenceError
  | encodingError
  | valueError
deriving DecidableEq, Repr

/-- One stream record of an ffmpeg probe result: its codec type and the
raw `r_frame_rate` string (`"num/den"`). -/
structure FFStream where
  codec_type : String
  r_frame_rate : String
deriving DecidableEq, Repr

/-- A framerate as the exact pair the source computes `int(num)/int(den)`
from; the pair determines the float value (floating-point rounding is
not modelled). -/
structure Framerate where
  num : Int
  den : Int
deriving DecidableEq, Repr

/-- Observable events of a pipeline run, in program order. -/
inductive Ev
  | mkdirEv (dir : String)
  | newSessionEv (model : String) (sid : Nat)
  | newSessionFailEv (model : String)
  | readFrame (name : String)
  | inferEv (sid : Nat) (name : String)
  | writeFrame (name : String)
  | progressEv (current total : Nat)
  | encodeEv (rate : Framerate)
  | acquireWorkspace
  | removeWorkspace
deriving DecidableEq, Repr

deriving instance DecidableEq for Except

/-- Bytes of an image file. -/
abbrev Bytes := List Nat

/-- A directory entry: filename and file content. -/
abbrev FrameFile := String × Bytes

/-- Split a character list on `'/'`, as Python's `split("/")`. -/
def splitSlash : List Char → List (List Char)
  | [] => [[]]
  | c :: cs =>
    let r := splitSlash cs
    if c = '/' then [] :: r
    else
      match r with
      | [] => [[c]]
      | h :: t => (c :: h) :: t

/-- Decimal digit run to a number; `none` when empty or a character is
not a digit (code points 48–57). -/
def digitsToNat? (cs : List Char) : Option Nat :=
  match cs with
  | [] => none
  | _ =>
    cs.foldl
      (fun acc? c =>
        acc?.bind fun acc =>
          if 48 ≤ c.toNat && c.toNat ≤ 57 then some (acc * 10 + (c.toNat - 48))
          else none)
      (some 0)

/-- Integer parsing as Python's `int(...)` on the probe's rate fields:
an optional sign followed by digits; anything else is the `ValueError`
path. -/
def parseInt? : List Char → Option Int
  | '-' :: cs => (digitsToNat? cs).map (fun n => -(n : Int))
  | '+' :: cs => (digitsToNat? cs).map (fun n => (n : Int))
  | cs => (digitsToNat? cs).map (fun n => (n : Int))

/-- Embedding of `_get_video_framerate`: probe the container (the probe
itself is external and supplied as an `Except`; its failure is the
"container cannot be read" case), take the first stream whose
`codec_type` is `"video"` (the source's `next(...)` raises when there is
none: the "no decodable video stream" case), split `r_frame_rate` on
`"/"` into exactly two parts and divide. Malformed rate strings and a
zero denominator are the source's `ValueError`/`ZeroDivisionError`
paths. -/
def get_video_framerate (probe : Except Unit (List FFStream)) : Except PErr Framerate :=
  match probe with
  | .error _ => .error .probeError
  | .ok streams =>
    match streams.find? (fun s => s.codec_type == "video") with
    | none => .error .probeError
    | some vs =>
      match splitSlash vs.r_frame_rate.data with
      | [n, d] =>
        match parseInt? n, parseInt? d with
        | some num, some den =>
          if den = 0 then .error .valueError else .ok ⟨num, den⟩
        | _, _ => .error .valueError
      | _ => .error .valueError

/-- Model identifiers the module documents as recognized
(`remover.py` docstring of `remove_background_from_frames`). -/
def knownModels : List String :=
  ["u2net", "u2netp", "isnet-general-use", "birefnet-general"]

/-- Modelled from the spec: rembg's `new_session` (the Segmentation
Engine's `load`, §4.3) is external library code, not part of this
repository. Per the spec, a recognized model identifier constructs a
session and "Unrecognized names fail with `UnknownModelError`". The
returned `Nat` is the session's identity. -/
def new_session (model_name : String) : Except PErr Nat :=
  if knownModels.contains model_name then .ok 1 else .error .unknownModelError

/-- Glob pattern `frame_*.png` used by `remove_background_from_frames`:
the name starts with `frame_` and ends with `.png`. -/
def isFramePng (name : String) : Bool :=
  "frame_".data.isPrefixOf name.data && ".png".data.isSuffixOf name.data

/-- Lexicographic order on character lists by code point — Python's
string comparison, which `sorted(...)` applies to the frame paths
(paths inside one directory compare by filename). -/
def lexLe : List Char → List Char → Bool
  | [], _ => true
  | _ :: _, [] => false
  | a :: as, b :: bs =>
    if a.toNat < b.toNat then true
    else if b.toNat < a.toNat then false
    else lexLe as bs

/-- String comparison by code points, as Python compares `str`. -/
def strLe (a b : String) : Bool := lexLe a.data b.data

/-- Ordering of frame files by filename. -/
def frameLe (a b : FrameFile) : Prop := strLe a.1 b.1 = true

instance : DecidableRel frameLe :=
  fun a b => inferInstanceAs (Decidable (strLe a.1 b.1 = true))

instance : IsTotal FrameFile frameLe :=
  ⟨by
    have key : ∀ x y : List Char, lexLe x y = true ∨ lexLe y x = true := by
      intro x
      induction x with
      | nil => intro y; left; rfl
      | cons a as ih =>
        intro y
        cases y with
        | nil => right; rfl
        | cons b bs =>
          rcases Nat.lt_trichotomy a.toNat b.toNat with h | h | h
          · left; simp [lexLe, h]
          · rcases ih bs with h2 | h2
            · left; simp [lexLe, h, h2]
            · right; simp [lexLe, h, h2]
          · right; simp [lexLe, h]
    exact fun p q => key p.1.data q.1.data⟩

instance : IsTrans FrameFile frameLe :=
  ⟨by
    have key : ∀ x y z : List Char,
        lexLe x y = true → lexLe y z = true → lexLe x z = true := by
      intro x
      induction x with
      | nil => intro y z _ _; rfl
      | cons a as ih =>
        intro y z hxy hyz
        cases y with
        | nil => simp [lexLe] at hxy
        | cons b bs =>
          cases z with
          | nil => simp [lexLe] at hyz
          | cons c cs =>
            simp only [lexLe] at hxy hyz ⊢
            split_ifs at hxy hyz ⊢ with h1 h2 h3 h4 h5 h6 <;>
              first
              | rfl
              | omega
              | (exact ih bs cs hxy hyz)
    exact fun p q r hpq hqr => key p.1.data q.1.data r.1.data hpq hqr⟩

/-- Embedding of `sorted(frames_dir.glob("frame_*.png"))`: the matching
entries of the directory, sorted by filename. -/
def listFrames (frames_dir : List FrameFile) : List FrameFile :=
  List.insertionSort frameLe (frames_dir.filter (fun p => isFramePng p.1))

/-- Result of a frame-batch run: the outcome, the files written to the
output directory (present even when a later frame failed), and the event
trace. -/
structure BRout where
  result : Except PErr Unit
  outFiles : List FrameFile
  trace : List Ev
deriving Repr

/-- Embedding of the frame loop of `remove_background_from_frames`:
for each frame in order, read its bytes, run inference with the one
session, write the result under the same name into the output directory,
then (when a callback was supplied) report progress `(i, total)` with
1-based `i`. An inference failure propagates at once, ending the loop. -/
def runFrames (infer : Bytes → Except PErr Bytes) (sid : Nat) (hasCb : Bool)
    (total : Nat) : List FrameFile → Nat → BRout
  | [], _ => ⟨.ok (), [], []⟩
  | (name, bytes) :: rest, i =>
    match infer bytes with
    | .error e => ⟨.error e, [], [.readFrame name, .inferEv sid name]⟩
    | .ok out =>
      let r := runFrames infer sid hasCb total rest (i + 1)
      ⟨r.result, (name, out) :: r.outFiles,
        .readFrame name :: .inferEv sid name :: .writeFrame name ::
          ((if hasCb then [.progressEv i total] else []) ++ r.trace)⟩

/-- Embedding of `remove_background_from_frames`: create the output
directory, list and sort the `frame_*.png` files, construct one model
session, then run the frame loop starting at index 1. `newSession` and
`infer` stand for the external rembg calls. -/
def remove_background_from_frames
    (newSession : String → Except PErr Nat)
    (infer : Nat → Bytes → Except PErr Bytes)
    (frames_dir : List FrameFile)
    (output_dir : String)
    (model_name : String)
    (hasCb : Bool) : BRout :=
  let frame_files := listFrames frames_dir
  let total := frame_files.length
  match newSession model_name with
  | .error e => ⟨.error e, [], [.mkdirEv output_dir, .newSessionFailEv model_name]⟩
  | .ok s =>
    let r := runFrames (infer s) s hasCb total frame_files 1
    ⟨r.result, r.outFiles, .mkdirEv output_dir :: .newSessionEv model_name s :: r.trace⟩

/-- Zero-padded five-digit frame index, as in the `frame_%05d.png`
patterns of `extract_frames` and `rebuild_video`. -/
def pad5 (i : Nat) : String :=
  let s := toString i
  String.mk (List.replicate (5 - s.length) '0') ++ s

/-- Filename of the i-th frame in the `frame_%05d.png` sequence. -/
def seqName (i : Nat) : String := "frame_" ++ pad5 i ++ ".png"

/-- Frames the ffmpeg image-sequence demuxer consumes: the maximal run
`frame_00001.png, frame_00002.png, ...` of names present in the
directory, starting at index 1 (`fuel` bounds the search). -/
def seqRun (files : List String) : Nat → Nat → List String
  | 0, _ => []
  | fuel + 1, i =>
    if files.contains (seqName i) then seqName i :: seqRun files fuel (i + 1) else []

/-- Frames matched by the `frame_%05d.png` input pattern of
`rebuild_video` in a directory holding `files`. -/
def framesConsumed (files : List String) : List String :=
  seqRun files (files.length + 1) 1

/-- Modelled from the spec: the FFmpeg encode invocation of
`rebuild_video` (external to this repository). Per the spec (§4.5) it
"Fails with `EncodingError` if no frames are found or encoding fails";
`encodeOk` stands for every other way encoding can fail. -/
def ffmpeg_encode (files : List String) (encodeOk : Bool) : Except PErr Unit :=
  if (framesConsumed files).isEmpty || !encodeOk then .error .encodingError else .ok ()

/-- Result of `rebuild_video`: the outcome and the event trace. -/
structure RBout where
  result : Except PErr Unit
  trace : List Ev
deriving Repr

/-- Embedding of `rebuild_video`: create the output path's parent
directory, then invoke the encoder on the `frame_%05d.png` sequence of
`files` at `framerate` (default `30.0`, as in the source's signature).
The `encodeEv` event records the framerate handed to the encoder. -/
def rebuild_video (files : List String) (encodeOk : Bool)
    (output_parent : String) (framerate : Framerate := ⟨30, 1⟩) : RBout :=
  ⟨ffmpeg_encode files encodeOk, [.mkdirEv output_parent, .encodeEv framerate]⟩

/-- Environment of one `process_video` run: outcomes of the external
calls each stage makes. `probe` is the ffmpeg probe of the input video,
`decode` the frame extraction (producing the files of `frames/`),
`newSession`/`infer` the rembg calls, `encodeOk` the reassembly encode. -/
structure Env where
  probe : Except Unit (List FFStream)
  decode : Except Unit (List FrameFile)
  newSession : String → Except PErr Nat
  infer : Nat → Bytes → Except PErr Bytes
  encodeOk : Bool

/-- Embedding of `extract_frames`: create `frames_dir`, probe the video
for its framerate, then decode every frame into `frames_dir` (the
decode is external; its failure is the spec's `ExtractionError`).
Returns the framerate and the produced frame files. -/
def extract_frames (env : Env) (frames_dir : String) :
    Except PErr (Framerate × List FrameFile) × List Ev :=
  match get_video_framerate env.probe with
  | .error e => (.error e, [.mkdirEv frames_dir])
  | .ok rate =>
    match env.decode with
    | .error _ => (.error .extractionError, [.mkdirEv frames_dir])
    | .ok frames => (.ok (rate, frames), [.mkdirEv frames_dir])

/-- Body of `process_video`'s `with` block: extract into `frames/`,
remove backgrounds into `output_frames/`, rebuild at the extracted
framerate. A stage's failure stops the sequence and propagates. -/
def pipelineBody (env : Env) (model_name : String) (hasCb : Bool) :
    Except PErr Unit × List Ev :=
  let ex := extract_frames env "frames"
  match ex.1 with
  | .error e => (.error e, ex.2)
  | .ok (rate, frames) =>
    let b := remove_background_from_frames env.newSession env.infer frames
      "output_frames" model_name hasCb
    match b.result with
    | .error e => (.error e, ex.2 ++ b.trace)
    | .ok _ =>
      let rb := rebuild_video (b.outFiles.map Prod.fst) env.encodeOk
        "output_parent" rate
      (rb.result, ex.2 ++ b.trace ++ rb.trace)

/-- Embedding of `process_video`: run the three stages inside
`tempfile.TemporaryDirectory`, whose context-manager semantics append
the workspace removal after the body on every exit path — normal return
and exception alike — before the body's outcome reaches the caller. -/
def process_video (env : Env) (model_name : String) (hasCb : Bool) :
    Except PErr Unit × List Ev :=
  let inner := pipelineBody env model_name hasCb
  (inner.1, .acquireWorkspace :: inner.2 ++ [.removeWorkspace])

/-- Progress-callback invocations recorded in a trace, in order. -/
def progressCalls (t : List Ev) : List (Nat × Nat) :=
  t.filterMap (fun e => match e with | .progressEv c n => some (c, n) | _ => none)

/-- Frame files read, in order. -/
def readEvents (t : List Ev) : List String :=
  t.filterMap (fun e => match e with | .readFrame n => some n | _ => none)

/-- Model-session constructions (attempted or successful), in order. -/
def sessionEvents (t : List Ev) : List Ev :=
  t.filter (fun e => match e with
    | .newSessionEv _ _ => true
    | .newSessionFailEv _ => true
    | _ => false)

/-- Encoder invocations recorded in a trace, each with its framerate. -/
def encodeRates (t : List Ev) : List Framerate :=
  t.filterMap (fun e => match e with | .encodeEv r => some r | _ => none)

/-- Per-frame work recorded in a trace: reads, inferences and writes. -/
def frameWork (t : List Ev) : List Ev :=
  t.filter (fun e => match e with
    | .readFrame _ => true
    | .inferEv _ _ => true
    | .writeFrame _ => true
    | _ => false)

/-- Events the frame loop of `remove_background_from_frames` can emit. -/
def isFrameLoopEv : Ev → Bool
  | .readFrame _ => true
  | .inferEv _ _ => true
  | .writeFrame _ => true
  | .progressEv _ _ => true
  | _ => false

/-- Workspace lifecycle events. -/
def isWorkspaceEv : Ev → Bool
  | .acquireWorkspace => true
  | .removeWorkspace => true
  | _ => false

/-- A concrete environment instantiating the theorems: a 24 fps video
decoding to two frames, inference echoing its input, encoding
succeeding. -/
def sampleEnv : Env :=
  { probe := .ok [⟨"video", "24/1"⟩]
    decode := .ok [("frame_00001.png", [1]), ("frame_00002.png", [2])]
    newSession := fun _ => .ok 1
    infer := fun _ b => .ok b
    encodeOk := true }

/-! ### Lemmas about the frame loop -/

theorem runFrames_trace_loopEv (infer : Bytes → Except PErr Bytes) (sid : Nat)
    (cb : Bool) (total : Nat) (fs : List FrameFile) (i : Nat) :
    ∀ e ∈ (runFrames infer sid cb total fs i).trace, isFrameLoopEv e = true := by
  induction fs generalizing i with
  | nil => intro e he; simp [runFrames] at he
  | cons f rest ih =>
    obtain ⟨name, bytes⟩ := f
    intro e he
    simp only [runFrames] at he
    cases hinf : infer bytes with
    | error err =>
      rw [hinf] at he
      simp only [List.mem_cons, List.mem_singleton] at he
      rcases he with h | h | h
      · subst h; rfl
      · subst h; rfl
      · simp at h
    | ok out =>
      rw [hinf] at he
      simp only [List.mem_cons, List.mem_append] at he
      rcases he with h | h | h | h
      · subst h; rfl
      · subst h; rfl
      · subst h; rfl
      rcases h with h | h
      · cases cb with
        | false => simp at h
        | true =>
          simp only [if_true] at h
          rw [List.mem_singleton] at h
          subst h; rfl
      · exact ih (i + 1) e h

theorem runFrames_infer_sid (infer : Bytes → Except PErr Bytes) (sid : Nat)
    (cb : Bool) (total : Nat) (fs : List FrameFile) (i : Nat) :
    ∀ s n, Ev.inferEv s n ∈ (runFrames infer sid cb total fs i).trace → s = sid := by
  induction fs generalizing i with
  | nil => intro s n h; simp [runFrames] at h
  | cons f rest ih =>
    obtain ⟨name, bytes⟩ := f
    intro s n h
    simp only [runFrames] at h
    cases hinf : infer bytes with
    | error err =>
      rw [hinf] at h
      simp only [List.mem_cons, List.mem_singleton] at h
      rcases h with h | h | h
      · exact absurd h (by simp)
      · exact (Ev.inferEv.injEq .. ▸ h).1
      · simp at h
    | ok out =>
      rw [hinf] at h
      simp only [List.mem_cons, List.mem_append] at h
      rcases h with h | h | h | h
      · exact absurd h (by simp)
      · exact (Ev.inferEv.injEq .. ▸ h).1
      · exact absurd h (by simp)
      rcases h with h | h
      · cases cb with
        | false => simp at h
        | true => simp at h
      · exact ih (i + 1) s n h

theorem runFrames_all_ok (infer : Bytes → Except PErr Bytes) (sid : Nat)
    (cb : Bool) (total : Nat) (fs : List FrameFile)
    (h : ∀ f ∈ fs, ∃ o, infer f.2 = .ok o) (i : Nat) :
    (runFrames infer sid cb total fs i).result = .ok () ∧
    (runFrames infer sid cb total fs i).outFiles.map Prod.fst = fs.map Prod.fst ∧
    readEvents (runFrames infer sid cb total fs i).trace = fs.map Prod.fst := by
  induction fs generalizing i with
  | nil => simp [runFrames, readEvents]
  | cons f rest ih =>
    obtain ⟨name, bytes⟩ := f
    obtain ⟨o, ho⟩ := h (name, bytes) (List.mem_cons_self _ _)
    have hrest : ∀ f ∈ rest, ∃ o, infer f.2 = .ok o :=
      fun f hf => h f (List.mem_cons_of_mem _ hf)
    obtain ⟨ih1, ih2, ih3⟩ := ih hrest (i + 1)
    refine ⟨?_, ?_, ?_⟩
    · simp only [runFrames, ho]; exact ih1
    · simp only [runFrames, ho, List.map_cons]; rw [ih2]
    · simp only [runFrames, ho, readEvents, List.filterMap_cons, List.filterMap_append]
      cases cb <;> simp_all [readEvents]

theorem runFrames_progress_ok (infer : Bytes → Except PErr Bytes) (sid : Nat)
    (total : Nat) (fs : List FrameFile)
    (h : ∀ f ∈ fs, ∃ o, infer f.2 = .ok o) (i : Nat) :
    progressCalls (runFrames infer sid true total fs i).trace =
      (List.range fs.length).map (fun k => (i + k, total)) := by
  induction fs generalizing i with
  | nil => simp [runFrames, progressCalls]
  | cons f rest ih =>
    obtain ⟨name, bytes⟩ := f
    obtain ⟨o, ho⟩ := h (name, bytes) (List.mem_cons_self _ _)
    have hrest : ∀ f ∈ rest, ∃ o, infer f.2 = .ok o :=
      fun f hf => h f (List.mem_cons_of_mem _ hf)
    have ihr := ih hrest (i + 1)
    simp only [progressCalls] at ihr
    simp only [runFrames, ho, progressCalls, List.filterMap_cons, List.filterMap_append,
      if_true, List.filterMap_nil]
    rw [ihr]
    rw [List.length_cons, List.range_succ_eq_map, List.map_cons, List.map_map]
    simp only [List.nil_append, List.cons_append, Nat.add_zero, List.cons.injEq, Prod.mk.injEq]
    refine ⟨by trivial, ?_⟩
    apply List.map_congr_left
    intro k _
    simp only [Function.comp_apply, Prod.mk.injEq]
    exact ⟨by omega, trivial⟩

theorem runFrames_progress_none (infer : Bytes → Except PErr Bytes) (sid : Nat)
    (total : Nat) (fs : List FrameFile) (i : Nat) :
    progressCalls (runFrames infer sid false total fs i).trace = [] := by
  induction fs generalizing i with
  | nil => simp [runFrames, progressCalls]
  | cons f rest ih =>
    obtain ⟨name, bytes⟩ := f
    simp only [runFrames]
    cases hinf : infer bytes with
    | error err => simp [progressCalls]
    | ok out =>
      have ihr := ih (i + 1)
      simp only [progressCalls] at ihr
      simp only [progressCalls, List.filterMap_cons, List.filterMap_append]
      simp [ihr]

theorem runFrames_result_ok_outFiles (infer : Bytes → Except PErr Bytes) (sid : Nat)
    (cb : Bool) (total : Nat) (fs : List FrameFile) (i : Nat)
    (h : (runFrames infer sid cb total fs i).result = .ok ()) :
    (runFrames infer sid cb total fs i).outFiles.map Prod.fst = fs.map Prod.fst := by
  induction fs generalizing i with
  | nil => simp [runFrames]
  | cons f rest ih =>
    obtain ⟨name, bytes⟩ := f
    cases hinf : infer bytes with
    | error err => simp only [runFrames, hinf] at h; simp at h
    | ok out =>
      simp only [runFrames, hinf] at h ⊢
      simp only [List.map_cons]
      rw [ih (i + 1) h]

theorem runFrames_fail (infer : Bytes → Except PErr Bytes) (sid : Nat)
    (cb : Bool) (total : Nat) (pre : List FrameFile) (name : String) (b : Bytes)
    (post : List FrameFile) (e : PErr)
    (hpre : ∀ f ∈ pre, ∃ o, infer f.2 = .ok o)
    (hfail : infer b = .error e) (i : Nat) :
    (runFrames infer sid cb total (pre ++ (name, b) :: post) i).result = .error e ∧
    (runFrames infer sid cb total (pre ++ (name, b) :: post) i).outFiles.map Prod.fst =
      pre.map Prod.fst := by
  induction pre generalizing i with
  | nil => simp [runFrames, hfail]
  | cons f rest ih =>
    obtain ⟨fname, fbytes⟩ := f
    obtain ⟨o, ho⟩ := hpre (fname, fbytes) (List.mem_cons_self _ _)
    have hrest : ∀ f ∈ rest, ∃ o, infer f.2 = .ok o :=
      fun f hf => hpre f (List.mem_cons_of_mem _ hf)
    obtain ⟨ih1, ih2⟩ := ih hrest (i + 1)
    constructor
    · simp only [List.cons_append, runFrames, ho]; exact ih1
    · simp only [List.cons_append, runFrames, ho, List.map_cons, List.append_eq] at ih2 ⊢
      rw [ih2]

/-! ### Lemmas about frame listing and component traces -/

theorem listFrames_perm (l : List FrameFile) :
    (listFrames l).Perm (l.filter (fun p => isFramePng p.1)) :=
  List.perm_insertionSort _ _

theorem listFrames_sorted (l : List FrameFile) :
    List.Sorted frameLe (listFrames l) :=
  List.sorted_insertionSort _ _

theorem loopEv_not_workspace (e : Ev) (h : isFrameLoopEv e = true) :
    isWorkspaceEv e = false := by
  cases e <;> simp_all [isFrameLoopEv, isWorkspaceEv]

theorem encodeRates_nil_of_loop (t : List Ev) (h : ∀ e ∈ t, isFrameLoopEv e = true) :
    encodeRates t = [] := by
  rw [encodeRates, List.filterMap_eq_nil_iff]
  intro e he
  have := h e he
  cases e <;> simp_all [isFrameLoopEv]

theorem br_structure (ns : String → Except PErr Nat) (infer : Nat → Bytes → Except PErr Bytes)
    (fd : List FrameFile) (out m : String) (cb : Bool) (s : Nat) (hs : ns m = .ok s) :
    remove_background_from_frames ns infer fd out m cb =
      ⟨(runFrames (infer s) s cb (listFrames fd).length (listFrames fd) 1).result,
       (runFrames (infer s) s cb (listFrames fd).length (listFrames fd) 1).outFiles,
       .mkdirEv out :: .newSessionEv m s ::
         (runFrames (infer s) s cb (listFrames fd).length (listFrames fd) 1).trace⟩ := by
  simp only [remove_background_from_frames, hs]

theorem br_no_workspace (ns : String → Except PErr Nat) (infer : Nat → Bytes → Except PErr Bytes)
    (fd : List FrameFile) (out m : String) (cb : Bool) :
    ∀ e ∈ (remove_background_from_frames ns infer fd out m cb).trace,
      isWorkspaceEv e = false := by
  intro e he
  simp only [remove_background_from_frames] at he
  cases hs : ns m with
  | error err =>
    rw [hs] at he
    simp only [List.mem_cons, List.mem_singleton] at he
    rcases he with h | h | h
    · subst h; rfl
    · subst h; rfl
    · simp at h
  | ok s =>
    rw [hs] at he
    simp only [List.mem_cons] at he
    rcases he with h | h | h
    · subst h; rfl
    · subst h; rfl
    · exact loopEv_not_workspace e (runFrames_trace_loopEv _ _ _ _ _ _ e h)

theorem br_no_encode (ns : String → Except PErr Nat) (infer : Nat → Bytes → Except PErr Bytes)
    (fd : List FrameFile) (out m : String) (cb : Bool) :
    encodeRates (remove_background_from_frames ns infer fd out m cb).trace = [] := by
  rw [encodeRates, List.filterMap_eq_nil_iff]
  intro e he
  simp only [remove_background_from_frames] at he
  cases hs : ns m with
  | error err =>
    rw [hs] at he
    simp only [List.mem_cons, List.mem_singleton] at he
    rcases he with h | h | h
    · subst h; rfl
    · subst h; rfl
    · simp at h
  | ok s =>
    rw [hs] at he
    simp only [List.mem_cons] at he
    rcases he with h | h | h
    · subst h; rfl
    · subst h; rfl
    · have := runFrames_trace_loopEv (infer s) s cb (listFrames fd).length (listFrames fd) 1 e h
      cases e <;> simp_all [isFrameLoopEv]

theorem extract_frames_trace (env : Env) (d : String) :
    (extract_frames env d).2 = [.mkdirEv d] := by
  simp only [extract_frames]
  cases get_video_framerate env.probe with
  | error e => rfl
  | ok r => cases env.decode <;> rfl

theorem pipelineBody_no_workspace (env : Env) (m : String) (cb : Bool) :
    ∀ e ∈ (pipelineBody env m cb).2, isWorkspaceEv e = false := by
  intro e he
  simp only [pipelineBody] at he
  cases hx : (extract_frames env "frames").1 with
  | error err =>
    rw [hx] at he
    rw [extract_frames_trace] at he
    simp only [List.mem_singleton] at he
    subst he; rfl
  | ok p =>
    obtain ⟨rate, frames⟩ := p
    rw [hx] at he
    dsimp only at he
    cases hb : (remove_background_from_frames env.newSession env.infer frames
        "output_frames" m cb).result with
    | error err =>
      rw [hb] at he
      dsimp only at he
      rw [extract_frames_trace] at he
      simp only [List.cons_append, List.nil_append, List.mem_cons] at he
      rcases he with h | h
      · subst h; rfl
      · exact br_no_workspace _ _ _ _ _ _ e h
    | ok u =>
      rw [hb] at he
      dsimp only at he
      rw [extract_frames_trace] at he
      simp only [rebuild_video, List.cons_append, List.nil_append, List.mem_cons,
        List.mem_append, List.mem_singleton] at he
      rcases he with h | h | h | h | h
      · subst h; rfl
      · exact br_no_workspace _ _ _ _ _ _ e h
      · subst h; rfl
      · subst h; rfl
      · simp at h

/-! ### Claim theorems -/

/-- C1: for every invocation of the end-to-end pipeline
(`process_video`), over every environment — so on success and on failure
of any stage — the run's trace is the workspace acquisition, then stage
events among which the workspace is never removed or re-acquired, then
the workspace removal as the very last event; and the outcome handed to
the caller is exactly the staged body's outcome (a failing stage's error
is propagated unchanged, after the cleanup event). -/
theorem process_video_workspace_cleanup (env : Env) (m : String) (cb : Bool) :
    ∃ mid, (process_video env m cb).2 = .acquireWorkspace :: mid ++ [.removeWorkspace] ∧
      Ev.removeWorkspace ∉ mid ∧ Ev.acquireWorkspace ∉ mid ∧
      (process_video env m cb).1 = (pipelineBody env m cb).1 := by
  refine ⟨(pipelineBody env m cb).2, rfl, ?_, ?_, rfl⟩
  · intro hmem
    have := pipelineBody_no_workspace env m cb _ hmem
    simp [isWorkspaceEv] at this
  · intro hmem
    have := pipelineBody_no_workspace env m cb _ hmem
    simp [isWorkspaceEv] at this

/-- C6: for every unrecognized model name, `remove_background_from_frames`
fails with `UnknownModelError`, and before any frame work: the result is
the error, nothing is written, and the trace holds only the directory
creation and the failed session construction — in particular no frame
file is read. -/
theorem unknown_model_fails_fast (infer : Nat → Bytes → Except PErr Bytes)
    (fd : List FrameFile) (out m : String) (cb : Bool)
    (hm : knownModels.contains m = false) :
    (remove_background_from_frames new_session infer fd out m cb).result =
      .error .unknownModelError ∧
    (remove_background_from_frames new_session infer fd out m cb).outFiles = [] ∧
    (remove_background_from_frames new_session infer fd out m cb).trace =
      [.mkdirEv out, .newSessionFailEv m] ∧
    readEvents (remove_background_from_frames new_session infer fd out m cb).trace = [] := by
  have hns : new_session m = .error .unknownModelError := by
    rw [new_session, hm]
    rfl
  refine ⟨?_, ?_, ?_, ?_⟩ <;> simp [remove_background_from_frames, hns, readEvents]

/-- Witness for C6 at the spec's own example name. -/
theorem unknown_model_fails_fast_witness :
    (remove_background_from_frames new_session (fun _ b => .ok b)
      [("frame_00001.png", [1])] "out" "not-a-real-model" true).result =
        .error .unknownModelError ∧
    (remove_background_from_frames new_session (fun _ b => .ok b)
      [("frame_00001.png", [1])] "out" "not-a-real-model" true).outFiles = [] ∧
    (remove_background_from_frames new_session (fun _ b => .ok b)
      [("frame_00001.png", [1])] "out" "not-a-real-model" true).trace =
        [.mkdirEv "out", .newSessionFailEv "not-a-real-model"] ∧
    readEvents (remove_background_from_frames new_session (fun _ b => .ok b)
      [("frame_00001.png", [1])] "out" "not-a-real-model" true).trace = [] :=
  unknown_model_fails_fast (fun _ b => .ok b) [("frame_00001.png", [1])] "out"
    "not-a-real-model" true (by decide)

/-- C7: for every asset whose container cannot be read (the probe itself
fails) or that has no decodable video stream (no stream with codec type
`"video"`), `_get_video_framerate` fails with `ProbeError`. -/
theorem prober_error (p : Except Unit (List FFStream))
    (h : p = .error () ∨ ∃ ss, p = .ok ss ∧ ∀ s ∈ ss, s.codec_type ≠ "video") :
    get_video_framerate p = .error .probeError := by
  rcases h with h | ⟨ss, rfl, hss⟩
  · subst h; rfl
  · simp only [get_video_framerate]
    have hfind : ss.find? (fun s => s.codec_type == "video") = none := by
      rw [List.find?_eq_none]
      intro s hsmem
      simpa using hss s hsmem
    rw [hfind]

/-- Witness for C7: an unreadable container and an audio-only asset. -/
theorem prober_error_witness :
    get_video_framerate (.error ()) = .error .probeError ∧
    get_video_framerate (.ok [⟨"audio", "0/0"⟩]) = .error .probeError :=
  ⟨prober_error (.error ()) (Or.inl rfl),
   prober_error (.ok [⟨"audio", "0/0"⟩])
     (Or.inr ⟨[⟨"audio", "0/0"⟩], rfl, by decide⟩)⟩

/-- C8: for every source directory containing no frames (no file of the
directory matches the frame-name pattern, so the encoder's
`frame_%05d.png` sequence is empty), `rebuild_video` fails with
`EncodingError`; and it also fails with `EncodingError` whenever
encoding itself fails. -/
theorem rebuild_no_frames_fails (files : List String) (encodeOk : Bool)
    (parent : String) (rate : Framerate) :
    ((∀ f ∈ files, isFramePng f = false) →
      (rebuild_video files encodeOk parent rate).result = .error .encodingError) ∧
    (encodeOk = false →
      (rebuild_video files encodeOk parent rate).result = .error .encodingError) := by
  constructor
  · intro hnone
    have hiso : isFramePng (seqName 1) = true := by decide
    have hc : files.contains (seqName 1) = false := by
      by_contra hcc
      rw [Bool.not_eq_false] at hcc
      have hmem : seqName 1 ∈ files := by simpa using hcc
      rw [hnone _ hmem] at hiso
      exact Bool.false_ne_true hiso
    have hfc : framesConsumed files = [] := by
      rw [framesConsumed, seqRun, hc]
      simp
    simp [rebuild_video, ffmpeg_encode, hfc]
  · intro hek
    subst hek
    simp [rebuild_video, ffmpeg_encode]

/-- Witness for C8: a directory with one non-frame file, and a failing
encode over one frame. -/
theorem rebuild_no_frames_fails_witness :
    (rebuild_video ["notes.txt"] true "parent" ⟨30, 1⟩).result =
      .error .encodingError ∧
    (rebuild_video ["frame_00001.png"] false "parent" ⟨30, 1⟩).result =
      .error .encodingError :=
  ⟨(rebuild_no_frames_fails ["notes.txt"] true "parent" ⟨30, 1⟩).1 (by decide),
   (rebuild_no_frames_fails ["frame_00001.png"] false "parent" ⟨30, 1⟩).2 rfl⟩

/-- C10: for a source directory with no file matching `frame_*.png`,
`remove_background_from_frames` returns successfully, still creates the
destination directory and constructs the model session (the trace is
exactly those two events), writes nothing, and invokes the progress
callback zero times. -/
theorem empty_batch_succeeds (ns : String → Except PErr Nat)
    (infer : Nat → Bytes → Except PErr Bytes) (fd : List FrameFile)
    (out m : String) (cb : Bool) (s : Nat)
    (hs : ns m = .ok s)
    (hempty : fd.filter (fun p => isFramePng p.1) = []) :
    (remove_background_from_frames ns infer fd out m cb).result = .ok () ∧
    (remove_background_from_frames ns infer fd out m cb).outFiles = [] ∧
    (remove_background_from_frames ns infer fd out m cb).trace =
      [.mkdirEv out, .newSessionEv m s] ∧
    progressCalls (remove_background_from_frames ns infer fd out m cb).trace = [] := by
  have hl : listFrames fd = [] := by
    rw [listFrames, hempty]
    rfl
  rw [br_structure ns infer fd out m cb s hs, hl]
  exact ⟨rfl, rfl, rfl, rfl⟩

/-- Witness for C10: a directory holding only non-matching files. -/
theorem empty_batch_succeeds_witness :
    (remove_background_from_frames (fun _ => .ok 7) (fun _ b => .ok b)
      [("notes.txt", [1]), ("frame_1.jpg", [2])] "out" "u2net" true).result = .ok () ∧
    (remove_background_from_frames (fun _ => .ok 7) (fun _ b => .ok b)
      [("notes.txt", [1]), ("frame_1.jpg", [2])] "out" "u2net" true).outFiles = [] ∧
    (remove_background_from_frames (fun _ => .ok 7) (fun _ b => .ok b)
      [("notes.txt", [1]), ("frame_1.jpg", [2])] "out" "u2net" true).trace =
        [.mkdirEv "out", .newSessionEv "u2net" 7] ∧
    progressCalls (remove_background_from_frames (fun _ => .ok 7) (fun _ b => .ok b)
      [("notes.txt", [1]), ("frame_1.jpg", [2])] "out" "u2net" true).trace = [] :=
  empty_batch_succeeds (fun _ => .ok 7) (fun _ b => .ok b)
    [("notes.txt", [1]), ("frame_1.jpg", [2])] "out" "u2net" true 7 rfl (by decide)

/-- C2: for every batch of N frames processed by
`remove_background_from_frames` with a progress callback supplied (and
inference succeeding on the batch), the callback is invoked exactly N
times, its first argument strictly increasing from 1 to N and its second
argument constant at N — the recorded calls are exactly
`(1, N), ..., (N, N)`; with no callback supplied, no progress is
reported. -/
theorem progress_monotone (ns : String → Except PErr Nat)
    (infer : Nat → Bytes → Except PErr Bytes) (fd : List FrameFile)
    (out m : String) (s : Nat)
    (hs : ns m = .ok s)
    (hok : ∀ b : Bytes, ∃ o, infer s b = .ok o) :
    progressCalls (remove_background_from_frames ns infer fd out m true).trace =
      (List.range (listFrames fd).length).map
        (fun k => (k + 1, (listFrames fd).length)) ∧
    progressCalls (remove_background_from_frames ns infer fd out m false).trace = [] := by
  constructor
  · rw [br_structure ns infer fd out m true s hs]
    have h := runFrames_progress_ok (infer s) s (listFrames fd).length (listFrames fd)
      (fun f _ => hok f.2) 1
    simp only [progressCalls, List.filterMap_cons] at h ⊢
    rw [h]
    apply List.map_congr_left
    intro k _
    simp [Nat.add_comm]
  · rw [br_structure ns infer fd out m false s hs]
    have h := runFrames_progress_none (infer s) s (listFrames fd).length (listFrames fd) 1
    simp only [progressCalls, List.filterMap_cons] at h ⊢
    rw [h]

/-- Witness for C2 on a two-frame batch. -/
theorem progress_monotone_witness :
    progressCalls (remove_background_from_frames (fun _ => .ok 5) (fun _ b => .ok b)
      [("frame_00002.png", [2]), ("frame_00001.png", [1]), ("readme.txt", [0])]
      "out" "u2net" true).trace = [(1, 2), (2, 2)] ∧
    progressCalls (remove_background_from_frames (fun _ => .ok 5) (fun _ b => .ok b)
      [("frame_00002.png", [2]), ("frame_00001.png", [1]), ("readme.txt", [0])]
      "out" "u2net" false).trace = [] := by
  have h := progress_monotone (fun _ => .ok 5) (fun _ b => .ok b)
    [("frame_00002.png", [2]), ("frame_00001.png", [1]), ("readme.txt", [0])]
    "out" "u2net" 5 rfl (fun b => ⟨b, rfl⟩)
  refine ⟨?_, h.2⟩
  rw [h.1]
  decide

/-- C3: whenever `remove_background_from_frames` succeeds, the output
directory holds exactly the frame files listed in the input directory —
the written names are, in order, the sorted `frame_*.png` names of the
input directory (so the two directories hold the same set of frame
filenames, and processing followed the sorted order). -/
theorem output_names_match (ns : String → Except PErr Nat)
    (infer : Nat → Bytes → Except PErr Bytes) (fd : List FrameFile)
    (out m : String) (cb : Bool) (s : Nat)
    (hs : ns m = .ok s)
    (hres : (remove_background_from_frames ns infer fd out m cb).result = .ok ()) :
    (remove_background_from_frames ns infer fd out m cb).outFiles.map Prod.fst =
      (listFrames fd).map Prod.fst ∧
    ((remove_background_from_frames ns infer fd out m cb).outFiles.map Prod.fst).Perm
      ((fd.filter (fun p => isFramePng p.1)).map Prod.fst) ∧
    List.Pairwise (fun a b : String => strLe a b = true)
      ((remove_background_from_frames ns infer fd out m cb).outFiles.map Prod.fst) := by
  rw [br_structure ns infer fd out m cb s hs] at hres ⊢
  dsimp only at hres ⊢
  have h1 := runFrames_result_ok_outFiles (infer s) s cb (listFrames fd).length
    (listFrames fd) 1 hres
  refine ⟨h1, ?_, ?_⟩
  · rw [h1]
    exact (listFrames_perm fd).map Prod.fst
  · rw [h1]
    have hsort := listFrames_sorted fd
    rw [List.pairwise_map]
    exact hsort

/-- Witness for C3 on a directory with two frames and a stray file. -/
theorem output_names_match_witness :
    (remove_background_from_frames (fun _ => .ok 5) (fun _ b => .ok b)
      [("frame_00002.png", [2]), ("readme.txt", [0]), ("frame_00001.png", [1])]
      "out" "u2net" true).outFiles.map Prod.fst =
        (listFrames [("frame_00002.png", [2]), ("readme.txt", [0]),
          ("frame_00001.png", [1])]).map Prod.fst ∧
    ((remove_background_from_frames (fun _ => .ok 5) (fun _ b => .ok b)
      [("frame_00002.png", [2]), ("readme.txt", [0]), ("frame_00001.png", [1])]
      "out" "u2net" true).outFiles.map Prod.fst).Perm
      (([("frame_00002.png", [2]), ("readme.txt", [0]),
        ("frame_00001.png", [1])].filter
          (fun p : FrameFile => isFramePng p.1)).map Prod.fst) ∧
    List.Pairwise (fun a b : String => strLe a b = true)
      ((remove_background_from_frames (fun _ => .ok 5) (fun _ b => .ok b)
        [("frame_00002.png", [2]), ("readme.txt", [0]), ("frame_00001.png", [1])]
        "out" "u2net" true).outFiles.map Prod.fst) :=
  output_names_match (fun _ => .ok 5) (fun _ b => .ok b)
    [("frame_00002.png", [2]), ("readme.txt", [0]), ("frame_00001.png", [1])]
    "out" "u2net" true 5 rfl (by decide)

/-- C4: for every invocation of `remove_background_from_frames` whose
session construction succeeds, exactly one session is constructed —
before the frame loop begins (it is the second trace event, right after
the directory creation, and no construction attempt appears later) — and
every frame's inference uses that single session. -/
theorem single_session_reused (ns : String → Except PErr Nat)
    (infer : Nat → Bytes → Except PErr Bytes) (fd : List FrameFile)
    (out m : String) (cb : Bool) (s : Nat)
    (hs : ns m = .ok s) :
    ∃ rest, (remove_background_from_frames ns infer fd out m cb).trace =
        .mkdirEv out :: .newSessionEv m s :: rest ∧
      sessionEvents (remove_background_from_frames ns infer fd out m cb).trace =
        [.newSessionEv m s] ∧
      ∀ sid name, Ev.inferEv sid name ∈ rest → sid = s := by
  rw [br_structure ns infer fd out m cb s hs]
  refine ⟨_, rfl, ?_, ?_⟩
  · have hnil : List.filter
        (fun e => match e with
          | Ev.newSessionEv _ _ => true
          | Ev.newSessionFailEv _ => true
          | _ => false)
        (runFrames (infer s) s cb (listFrames fd).length (listFrames fd) 1).trace = [] := by
      rw [List.filter_eq_nil_iff]
      intro e he
      have hl := runFrames_trace_loopEv (infer s) s cb (listFrames fd).length
        (listFrames fd) 1 e he
      cases e <;> simp_all [isFrameLoopEv]
    dsimp only [sessionEvents]
    rw [List.filter_cons, List.filter_cons]
    dsimp only
    rw [hnil]
    rfl
  · exact runFrames_infer_sid (infer s) s cb (listFrames fd).length (listFrames fd) 1

/-- Witness for C4 on a two-frame batch. -/
theorem single_session_reused_witness :
    ∃ rest, (remove_background_from_frames (fun _ => .ok 5) (fun _ b => .ok b)
        [("frame_00002.png", [2]), ("frame_00001.png", [1])]
        "out" "u2net" true).trace =
          .mkdirEv "out" :: .newSessionEv "u2net" 5 :: rest ∧
      sessionEvents (remove_background_from_frames (fun _ => .ok 5) (fun _ b => .ok b)
        [("frame_00002.png", [2]), ("frame_00001.png", [1])]
        "out" "u2net" true).trace = [.newSessionEv "u2net" 5] ∧
      ∀ sid name, Ev.inferEv sid name ∈ rest → sid = 5 :=
  single_session_reused (fun _ => .ok 5) (fun _ b => .ok b)
    [("frame_00002.png", [2]), ("frame_00001.png", [1])] "out" "u2net" true 5 rfl

/-- C5: if inference fails on a frame of the batch (all frames before it
succeeding), `remove_background_from_frames` fails as a whole with
`InferenceError` — no partial-success result — and the outputs already
written for the earlier frames remain: the written names are exactly the
frames preceding the failing one. -/
theorem inference_failure_fails_batch (ns : String → Except PErr Nat)
    (infer : Nat → Bytes → Except PErr Bytes) (fd : List FrameFile)
    (out m : String) (cb : Bool) (s : Nat) (pre : List FrameFile)
    (name : String) (b : Bytes) (post : List FrameFile)
    (hs : ns m = .ok s)
    (hsplit : listFrames fd = pre ++ (name, b) :: post)
    (hpre : ∀ f ∈ pre, ∃ o, infer s f.2 = .ok o)
    (hfail : infer s b = .error .inferenceError) :
    (remove_background_from_frames ns infer fd out m cb).result =
      .error .inferenceError ∧
    (remove_background_from_frames ns infer fd out m cb).outFiles.map Prod.fst =
      pre.map Prod.fst := by
  rw [br_structure ns infer fd out m cb s hs]
  dsimp only
  rw [hsplit]
  exact runFrames_fail (infer s) s cb _ pre name b post _ hpre hfail 1

/-- Witness for C5: the second of three frames fails. -/
theorem inference_failure_fails_batch_witness :
    (remove_background_from_frames (fun _ => .ok 5)
      (fun _ b => if b = [2] then .error .inferenceError else .ok b)
      [("frame_00001.png", [1]), ("frame_00002.png", [2]), ("frame_00003.png", [3])]
      "out" "u2net" true).result = .error .inferenceError ∧
    (remove_background_from_frames (fun _ => .ok 5)
      (fun _ b => if b = [2] then .error .inferenceError else .ok b)
      [("frame_00001.png", [1]), ("frame_00002.png", [2]), ("frame_00003.png", [3])]
      "out" "u2net" true).outFiles.map Prod.fst = ["frame_00001.png"] :=
  inference_failure_fails_batch (fun _ => .ok 5)
    (fun _ b => if b = [2] then .error .inferenceError else .ok b)
    [("frame_00001.png", [1]), ("frame_00002.png", [2]), ("frame_00003.png", [3])]
    "out" "u2net" true 5
    [("frame_00001.png", [1])] "frame_00002.png" [2] [("frame_00003.png", [3])]
    rfl (by decide)
    (by
      intro f hf
      simp only [List.mem_singleton] at hf
      subst hf
      exact ⟨[1], rfl⟩)
    rfl

/-- C9: `rebuild_video` invoked without an explicit framerate argument
hands the encoder 30 frames per second, whatever the source's framerate
was; and in `process_video`, when extraction yields framerate `rate` and
the batch succeeds, the one encoder invocation of the whole run receives
exactly that extracted `rate`. -/
theorem default_framerate_thirty :
    (∀ (files : List String) (encodeOk : Bool) (parent : String),
      (rebuild_video files encodeOk parent).trace =
        [.mkdirEv parent, .encodeEv ⟨30, 1⟩]) ∧
    (∀ (env : Env) (m : String) (cb : Bool) (rate : Framerate)
        (frames : List FrameFile),
      (extract_frames env "frames").1 = .ok (rate, frames) →
      (remove_background_from_frames env.newSession env.infer frames
        "output_frames" m cb).result = .ok () →
      encodeRates (process_video env m cb).2 = [rate]) := by
  constructor
  · intro files encodeOk parent
    rfl
  · intro env m cb rate frames hx hb
    simp only [process_video, pipelineBody, hx, hb]
    rw [extract_frames_trace]
    simp only [encodeRates, List.filterMap_cons, List.filterMap_append,
      List.cons_append, List.nil_append]
    have hbr := br_no_encode env.newSession env.infer frames "output_frames" m cb
    simp only [encodeRates] at hbr
    rw [hbr]
    rfl

/-- Witness for C9: the sample environment's 24 fps reaches the encoder,
and a direct default-argument call encodes at 30 fps. -/
theorem default_framerate_thirty_witness :
    (rebuild_video ["frame_00001.png"] true "parent").trace =
      [.mkdirEv "parent", .encodeEv ⟨30, 1⟩] ∧
    encodeRates (process_video sampleEnv "u2net" true).2 = [⟨24, 1⟩] :=
  ⟨default_framerate_thirty.1 ["frame_00001.png"] true "parent",
   default_framerate_thirty.2 sampleEnv "u2net" true ⟨24, 1⟩
     [("frame_00001.png", [1]), ("frame_00002.png", [2])] (by decide) (by decide)⟩

end Rekrea
